import Mathlib

/-
Verification of the MIDI pianoroll extraction, caching and dataset-assembly
logic of midi_generator (src/midi_generator/dataset/midi.py), as a shallow
embedding in Lean.

Modelling conventions:
  - Python exceptions become an explicit error type `PyErr`; fallible code
    returns `Except PyErr`.
  - numpy 2-D arrays (pianorolls, shape (T, 128)) become `List (List Nat)`
    (a list of T rows); 3-D arrays become one more nesting level.
  - Python dicts keyed by INSTRUMENT become insertion-ordered association
    lists with unique keys (Python dicts preserve insertion order).
  - The filesystem holding the pickle cache becomes a function from path
    strings to an optional stored blob; a blob is `Except Unit PianorollMap`,
    where the error case models bytes that fail to unpickle.  Serialization
    itself (pickle.dump / pickle.load of a well-formed value) is modelled as
    the identity.
  - External collaborators (pypianoroll.read, hashlib.md5) are modelled as
    explicit function parameters or deterministic stand-ins; only the
    properties the code relies on (determinism, fixed-shape output) are
    preserved.
-/

/-- Python exception values, distinguished by their class.  The class matters
because MIDIDataset.__init__ catches exactly ValueError. -/
inductive PyErr where
  | valueError (msg : String)
  | typeError (msg : String)
  | attributeError (msg : String)
  | keyError (msg : String)
  | indexError (msg : String)
  | unpicklingError (msg : String)
deriving DecidableEq

deriving instance DecidableEq for Except

/-- The MIDIData.INSTRUMENT enumeration (dataset/midi.py lines 26-46), sixteen
members declared with auto(), so member values are the integers 1..16 in
declaration order. -/
inductive INSTRUMENT where
  | PIANO
  | CHROMATIC_PERCUSSION
  | ORGAN
  | GUITAR
  | BASS
  | STRINGS
  | ENSEMBLE
  | BRASS
  | REED
  | PIPE
  | SYNTH_LEAD
  | SYNTH_PAD
  | SYNTH_EFFECTS
  | ETHNIC
  | PERCUSSIVE
  | SOUND_EFFECTS
deriving DecidableEq

/-- Python Enum member .name attribute, used in the validation error message. -/
def INSTRUMENT.pyName : INSTRUMENT → String
  | .PIANO => "PIANO"
  | .CHROMATIC_PERCUSSION => "CHROMATIC_PERCUSSION"
  | .ORGAN => "ORGAN"
  | .GUITAR => "GUITAR"
  | .BASS => "BASS"
  | .STRINGS => "STRINGS"
  | .ENSEMBLE => "ENSEMBLE"
  | .BRASS => "BRASS"
  | .REED => "REED"
  | .PIPE => "PIPE"
  | .SYNTH_LEAD => "SYNTH_LEAD"
  | .SYNTH_PAD => "SYNTH_PAD"
  | .SYNTH_EFFECTS => "SYNTH_EFFECTS"
  | .ETHNIC => "ETHNIC"
  | .PERCUSSIVE => "PERCUSSIVE"
  | .SOUND_EFFECTS => "SOUND_EFFECTS"

/-- Pianoroll matrix: a numpy array of shape (T, 128) becomes a list of T rows,
each a list of velocity values. -/
abbrev Mat2 := List (List Nat)

/-- Stacked output of MIDIDataset.__getitem__, a numpy array of shape
(T, 128, K). -/
abbrev Mat3 := List (List (List Nat))

/-- A pypianoroll.Track as far as the code under verification reads it: a
program number in [0,127] and a pianoroll matrix. -/
structure Track where
  program : Nat
  pianoroll : Mat2
deriving DecidableEq

/-- The dict self pianorolls mapping INSTRUMENT to an np.array, as an
insertion-ordered association list. -/
abbrev PianorollMap := List (INSTRUMENT × Mat2)

/-- Python dict lookup (first, and with unique keys only, binding for the
key). -/
def map_find : PianorollMap → INSTRUMENT → Option Mat2
  | [], _ => none
  | (k, v) :: rest, i => if k = i then some v else map_find rest i

/-- Python dict key view, in insertion order. -/
def map_keys (m : PianorollMap) : List INSTRUMENT :=
  m.map Prod.fst

/-- Python Enum lookup INSTRUMENT(value) at dataset/midi.py line 169.  The
looked-up value is the Python float `track.program / 8 + 1` (true division).
For program in [0,127] the float arithmetic is exact, the value equals the
rational (program + 8)/8, and we represent it without loss by its numerator
in units of one eighth.  The Enum value lookup succeeds exactly when the
float compares equal to one of the integer member values 1..16, i.e. when
the numerator in eighths equals 8 * k for k in 1..16; any other value makes
the Enum constructor raise ValueError. -/
def INSTRUMENT.fromValueEighths (v8 : Nat) : Except PyErr INSTRUMENT :=
  if v8 = 8 * 1 then .ok .PIANO
  else if v8 = 8 * 2 then .ok .CHROMATIC_PERCUSSION
  else if v8 = 8 * 3 then .ok .ORGAN
  else if v8 = 8 * 4 then .ok .GUITAR
  else if v8 = 8 * 5 then .ok .BASS
  else if v8 = 8 * 6 then .ok .STRINGS
  else if v8 = 8 * 7 then .ok .ENSEMBLE
  else if v8 = 8 * 8 then .ok .BRASS
  else if v8 = 8 * 9 then .ok .REED
  else if v8 = 8 * 10 then .ok .PIPE
  else if v8 = 8 * 11 then .ok .SYNTH_LEAD
  else if v8 = 8 * 12 then .ok .SYNTH_PAD
  else if v8 = 8 * 13 then .ok .SYNTH_EFFECTS
  else if v8 = 8 * 14 then .ok .ETHNIC
  else if v8 = 8 * 15 then .ok .PERCUSSIVE
  else if v8 = 8 * 16 then .ok .SOUND_EFFECTS
  else .error (.valueError "is not a valid INSTRUMENT")

/-- The expression `MIDIData.INSTRUMENT(track.program / 8 + 1)` from
dataset/midi.py line 169.  Python `/` is true division yielding a float, so
the argument is the exact rational program/8 + 1 = (program + 8)/8, which we
pass to the Enum lookup as a numerator in eighths. -/
def map_program (program : Nat) : Except PyErr INSTRUMENT :=
  INSTRUMENT.fromValueEighths (program + 8)

/-- MIDIData extract pianorolls (dataset/midi.py lines 152-175): iterate
tracks in order; map each program to an INSTRUMENT (which may raise
ValueError, propagated); if the instrument is already a dict key, log a
warning and skip the track; otherwise insert the unmodified pianoroll. -/
def extract_pianorolls : List Track → PianorollMap → Except PyErr PianorollMap
  | [], acc => .ok acc
  | t :: rest, acc =>
    match map_program t.program with
    | .error e => .error e
    | .ok instrument =>
      if (map_find acc instrument).isSome then
        extract_pianorolls rest acc
      else
        extract_pianorolls rest (acc ++ [(instrument, t.pianoroll)])

/-- MIDIData.get_instruments (dataset/midi.py lines 177-187):
`sorted(list(self._pianorolls.keys()))`.  INSTRUMENT is a plain Enum, which
defines no order comparison, so Python sorted() raises TypeError the first
time it compares two members; sorted() compares at least once exactly when
the list has two or more elements, and then never returns.  For zero or one
key no comparison happens and the (trivially sorted) key list is
returned. -/
def get_instruments (rolls : PianorollMap) : Except PyErr (List INSTRUMENT) :=
  let keys := map_keys rolls
  if keys.length ≤ 1 then .ok keys
  else .error (.typeError "< not supported between instances of INSTRUMENT and INSTRUMENT")

/-- MIDIData.get_pianoroll (dataset/midi.py lines 189-199): dict subscript,
raising KeyError when the instrument is absent. -/
def get_pianoroll (rolls : PianorollMap) (instrument : INSTRUMENT) : Except PyErr Mat2 :=
  match map_find rolls instrument with
  | some m => .ok m
  | none => .error (.keyError instrument.pyName)

/-- Models hashlib.md5(path.encode()).hexdigest(): an external library call
producing a fixed-length hexadecimal string determined solely by the input
string.  The claims rely only on determinism of the digest, so it is modelled
by a deterministic 32-hex-character rendering of a simple fold over the
characters; collision behavior is irrelevant to every claim proved here. -/
def md5_hexdigest (s : String) : String :=
  let h := s.data.foldl (fun a c => (a * 257 + c.toNat) % (2 ^ 128)) 7
  let ds := Nat.toDigits 16 h
  String.mk (List.replicate (32 - ds.length) '0' ++ ds)

/-- MIDIData get cache path (dataset/midi.py lines 85-98):
the f-string {cache_home}/{md5 of MIDI path}.pkl. -/
def get_cache_path (midi_path : String) (cache_home : String) : String :=
  cache_home ++ "/" ++ md5_hexdigest midi_path ++ ".pkl"

/-- A stored cache blob: bytes on disk that either unpickle to a pianoroll
map or fail to deserialize. -/
abbrev CacheBlob := Except Unit PianorollMap

/-- The filesystem visible to the cache, as a map from path strings to
stored blobs. -/
abbrev CacheFS := String → Option CacheBlob

/-- MIDIData try pianorolls from cache (dataset/midi.py lines 100-124).
Returns None (modelled .ok none) when cache_home is None; otherwise computes
the cache path — which evaluates midi_path.encode() and therefore raises
AttributeError when midi_path is None — then returns None when the file does
not exist, the unpickled map when it exists and deserializes, and propagates
the deserialization failure (pickle.UnpicklingError, uncaught) otherwise. -/
def try_pianorolls_from_cache (midi_path : Option String) (cache_home : Option String)
    (fs : CacheFS) : Except PyErr (Option PianorollMap) :=
  match cache_home with
  | none => .ok none
  | some ch =>
    match midi_path with
    | none => .error (.attributeError "NoneType object has no attribute encode")
    | some p =>
      match fs (get_cache_path p ch) with
      | none => .ok none
      | some (.ok rolls) => .ok (some rolls)
      | some (.error _) => .error (.unpicklingError "could not deserialize cache entry")

/-- MIDIData store pianorolls to cache (dataset/midi.py lines 126-150).
No-op when cache_home is None; otherwise computes the cache path (raising
AttributeError when midi_path is None), creates directories as needed
(invisible in this model), and writes the serialized map, overwriting any
existing entry. -/
def store_pianorolls_to_cache (midi_path : Option String) (cache_home : Option String)
    (rolls : PianorollMap) (fs : CacheFS) : Except PyErr CacheFS :=
  match cache_home with
  | none => .ok fs
  | some ch =>
    match midi_path with
    | none => .error (.attributeError "NoneType object has no attribute encode")
    | some p =>
      .ok (fun k => if k = get_cache_path p ch then some (.ok rolls) else fs k)

/-- Python truthiness of an Optional[str]: None and the empty string are
falsy. -/
def truthy : Option String → Bool
  | none => false
  | some s => s != ""

/-- MIDIData.__init__ (dataset/midi.py lines 51-83), with the external parser
pypianoroll.read passed as the function parameter parse and the filesystem
passed and returned explicitly.  Raises ValueError when both midi_path and
multi_track are None; otherwise consults the cache (whose errors propagate
and leave the filesystem unchanged, since every raising point precedes the
write); on a hit adopts the cached map; on a miss parses midi_path if truthy
(propagating the parse ValueError), else reads tracks from multi_track
(AttributeError on None.tracks), extracts, stores to cache, and returns the
extracted map.  The returned CacheFS is the filesystem after construction;
it equals the input on every error path because nothing is written before
any raising point. -/
def MIDIData_init (parse : String → Except PyErr (List Track))
    (midi_path : Option String) (multi_track : Option (List Track))
    (cache_home : Option String) (fs : CacheFS) :
    Except PyErr PianorollMap × CacheFS :=
  if midi_path.isNone && multi_track.isNone then
    (.error (.valueError "One of midi_path nor multi_track should be passed to MIDIData"), fs)
  else
    match try_pianorolls_from_cache midi_path cache_home fs with
    | .error e => (.error e, fs)
    | .ok (some rolls) => (.ok rolls, fs)
    | .ok none =>
      let tracksR : Except PyErr (List Track) :=
        if truthy midi_path then parse (midi_path.getD "")
        else
          match multi_track with
          | some mt => .ok mt
          | none => .error (.attributeError "NoneType object has no attribute tracks")
      match tracksR with
      | .error e => (.error e, fs)
      | .ok tracks =>
        match extract_pianorolls tracks [] with
        | .error e => (.error e, fs)
        | .ok rolls =>
          match store_pianorolls_to_cache midi_path cache_home rolls fs with
          | .error e => (.error e, fs)
          | .ok fs2 => (.ok rolls, fs2)

/-- Inner loop body of MIDIDataset.validate_data (dataset/midi.py lines
252-256): for each required instrument, membership is tested against
midi.get_instruments() — whose TypeError, when raised, propagates — and a
descriptive ValueError naming the instrument is raised when it is absent. -/
def validate_one (rolls : PianorollMap) : List INSTRUMENT → Except PyErr Unit
  | [] => .ok ()
  | i :: rest =>
    match get_instruments rolls with
    | .error e => .error e
    | .ok avail =>
      if i ∈ avail then validate_one rolls rest
      else .error (.valueError ("Instrument " ++ i.pyName ++ " is missing in the MIDI of the dataset!"))

/-- MIDIDataset.validate_data (dataset/midi.py lines 241-256): nested loops
over retained records and required instruments, raising on the first
failure. -/
def validate_data : List PianorollMap → List INSTRUMENT → Except PyErr Unit
  | [], _ => .ok ()
  | m :: rest, instruments =>
    match validate_one m instruments with
    | .error e => .error e
    | .ok _ => validate_data rest instruments

/-- The per-path loop of MIDIDataset.__init__ (dataset/midi.py lines
224-235): construct MIDIData for each path in order; a ValueError is caught,
logged as a warning, and the file is skipped; any other exception
propagates.  Retained pianoroll maps are appended in path order. -/
def load_midis (parse : String → Except PyErr (List Track)) (cache_home : Option String) :
    List String → List PianorollMap → CacheFS →
    Except PyErr (List PianorollMap) × CacheFS
  | [], acc, fs => (.ok acc, fs)
  | p :: rest, acc, fs =>
    match MIDIData_init parse (some p) none cache_home fs with
    | (.ok rolls, fs2) => load_midis parse cache_home rest (acc ++ [rolls]) fs2
    | (.error (.valueError _), fs2) => load_midis parse cache_home rest acc fs2
    | (.error e, fs2) => (.error e, fs2)

/-- The state of a constructed MIDIDataset: the retained records and the
required instrument list. -/
structure MIDIDatasetState where
  midis : List PianorollMap
  instruments : List INSTRUMENT
deriving DecidableEq

/-- MIDIDataset.__init__ (dataset/midi.py lines 210-239): bulk load with
per-file ValueError tolerance, then validate_data, whose exception aborts
construction. -/
def MIDIDataset_init (parse : String → Except PyErr (List Track))
    (midi_files : List String) (instruments : List INSTRUMENT)
    (cache_home : Option String) (fs : CacheFS) :
    Except PyErr MIDIDatasetState × CacheFS :=
  match load_midis parse cache_home midi_files [] fs with
  | (.error e, fs2) => (.error e, fs2)
  | (.ok midis, fs2) =>
    match validate_data midis instruments with
    | .error e => (.error e, fs2)
    | .ok _ => (.ok ⟨midis, instruments⟩, fs2)

/-- MIDIDataset.__len__ (dataset/midi.py lines 258-263). -/
def MIDIDataset_len (st : MIDIDatasetState) : Nat :=
  st.midis.length

/-- The list comprehension in MIDIDataset.__getitem__ (dataset/midi.py line
275): look up each required instrument in order, propagating the first
KeyError. -/
def get_pianorolls_list (rolls : PianorollMap) : List INSTRUMENT → Except PyErr (List Mat2)
  | [] => .ok []
  | i :: rest =>
    match get_pianoroll rolls i with
    | .error e => .error e
    | .ok m =>
      match get_pianorolls_list rolls rest with
      | .error e => .error e
      | .ok ms => .ok (m :: ms)

/-- Equality of numpy shape tuples for 2-D arrays represented as row lists:
same number of rows and pairwise equal row lengths. -/
def sameShape : Mat2 → Mat2 → Bool
  | [], [] => true
  | a :: as, b :: bs => a.length == b.length && sameShape as bs
  | _, _ => false

/-- Data produced by np.stack(ms, axis=2) on K same-shape (T, P) arrays: the
(T, P, K) array with entry [t][p][k] = ms[k][t][p]. -/
def stack_data (ms : List Mat2) : Mat3 :=
  let t_len := (ms.headD []).length
  let p_len := ((ms.headD []).headD []).length
  (List.range t_len).map fun t =>
    (List.range p_len).map fun p =>
      ms.map fun m => (m.getD t []).getD p 0

/-- np.stack(pianorolls, axis=2) as called in MIDIDataset.__getitem__ line
277: raises ValueError on an empty input list, raises ValueError when the
input arrays do not all share one shape, and otherwise stacks along a new
trailing axis. -/
def np_stack_axis2 (ms : List Mat2) : Except PyErr Mat3 :=
  match ms with
  | [] => .error (.valueError "need at least one array to stack")
  | m0 :: rest =>
    if rest.all (fun m => sameShape m0 m) then
      .ok (stack_data (m0 :: rest))
    else
      .error (.valueError "all input arrays must have the same shape")

/-- MIDIDataset.__getitem__ (dataset/midi.py lines 265-277): index the
retained record list (IndexError out of range), collect the required
pianorolls in required-list order, and stack them along a new trailing
axis. -/
def MIDIDataset_getitem (st : MIDIDatasetState) (index : Nat) : Except PyErr Mat3 :=
  match st.midis[index]? with
  | none => .error (.indexError "list index out of range")
  | some rolls =>
    match get_pianorolls_list rolls st.instruments with
    | .error e => .error e
    | .ok ms => np_stack_axis2 ms

/-- Modelled from the spec, for stating the first-writer-wins claim: the
first track of a list whose program maps to the given instrument. -/
def spec_first_track_for : List Track → INSTRUMENT → Option Track
  | [], _ => none
  | t :: rest, i =>
    if map_program t.program = .ok i then some t else spec_first_track_for rest i

/-- Classifier used to state the per-file tolerance hypothesis: a
construction result that either succeeded or failed with the one exception
class MIDIDataset.__init__ catches. -/
def is_ok_or_value_error : Except PyErr PianorollMap → Bool
  | .ok _ => true
  | .error (.valueError _) => true
  | .error _ => false

/-- Dict lookup after appending one fresh binding at the end. -/
theorem map_find_append (acc : PianorollMap) (j : INSTRUMENT) (v : Mat2) (i : INSTRUMENT) :
    map_find (acc ++ [(j, v)]) i =
      match map_find acc i with
      | some w => some w
      | none => if j = i then some v else none := by
  induction acc with
  | nil => simp [map_find]
  | cons kv rest ih =>
    obtain ⟨k, w⟩ := kv
    by_cases hk : k = i
    · simp [map_find, hk]
    · simp [map_find, hk, ih]

/-- Keys on which dict lookup fails are outside the key view. -/
theorem not_mem_keys_of_find_eq_none (m : PianorollMap) (i : INSTRUMENT)
    (h : map_find m i = none) : i ∉ map_keys m := by
  induction m with
  | nil => simp [map_keys]
  | cons kv rest ih =>
    obtain ⟨k, w⟩ := kv
    by_cases hk : k = i
    · rw [map_find, if_pos hk] at h
      exact absurd h (by simp)
    · rw [map_find, if_neg hk] at h
      simp only [map_keys, List.map_cons, List.mem_cons]
      rintro (h1 | h2)
      · exact hk h1.symm
      · exact ih h h2

/-- Unfolding equation for extraction when the head track's program maps
successfully. -/
theorem extract_pianorolls_cons_ok (t : Track) (rest : List Track) (acc : PianorollMap)
    (j : INSTRUMENT) (hmp : map_program t.program = .ok j) :
    extract_pianorolls (t :: rest) acc =
      if (map_find acc j).isSome then extract_pianorolls rest acc
      else extract_pianorolls rest (acc ++ [(j, t.pianoroll)]) := by
  rw [extract_pianorolls, hmp]

/-- Unfolding equation for extraction when the head track's program fails to
map: the ValueError propagates. -/
theorem extract_pianorolls_cons_error (t : Track) (rest : List Track) (acc : PianorollMap)
    (e : PyErr) (hmp : map_program t.program = .error e) :
    extract_pianorolls (t :: rest) acc = .error e := by
  rw [extract_pianorolls, hmp]

/-- Extraction never overwrites: a binding already in the accumulating dict
survives to the result unchanged. -/
theorem extract_preserves_binding (ts : List Track) :
    ∀ (acc m : PianorollMap) (i : INSTRUMENT) (w : Mat2),
    extract_pianorolls ts acc = .ok m → map_find acc i = some w →
    map_find m i = some w := by
  induction ts with
  | nil =>
    intro acc m i w h hw
    rw [extract_pianorolls] at h
    cases h
    exact hw
  | cons t rest ih =>
    intro acc m i w h hw
    cases hmp : map_program t.program with
    | error e =>
      rw [extract_pianorolls_cons_error t rest acc e hmp] at h
      exact absurd h (by simp)
    | ok j =>
      rw [extract_pianorolls_cons_ok t rest acc j hmp] at h
      by_cases hdup : (map_find acc j).isSome
      · rw [if_pos hdup] at h
        exact ih acc m i w h hw
      · rw [if_neg hdup] at h
        refine ih _ m i w h ?_
        rw [map_find_append, hw]

/-- First-writer-wins, relative to an accumulator that does not yet bind the
instrument: the result binds it to the pianoroll of the first track whose
program maps to it, and to nothing when no track does. -/
theorem extract_binds_first_track (ts : List Track) :
    ∀ (acc m : PianorollMap) (i : INSTRUMENT),
    extract_pianorolls ts acc = .ok m → map_find acc i = none →
    map_find m i = Option.map Track.pianoroll (spec_first_track_for ts i) := by
  induction ts with
  | nil =>
    intro acc m i h hnone
    rw [extract_pianorolls] at h
    cases h
    rw [hnone, spec_first_track_for]
    rfl
  | cons t rest ih =>
    intro acc m i h hnone
    cases hmp : map_program t.program with
    | error e =>
      rw [extract_pianorolls_cons_error t rest acc e hmp] at h
      exact absurd h (by simp)
    | ok j =>
      rw [extract_pianorolls_cons_ok t rest acc j hmp] at h
      by_cases hij : j = i
      · subst hij
        by_cases hdup : (map_find acc j).isSome
        · rw [hnone] at hdup
          exact absurd hdup (by simp)
        · rw [if_neg hdup] at h
          have hm : map_find m j = some t.pianoroll := by
            refine extract_preserves_binding rest _ m j t.pianoroll h ?_
            rw [map_find_append, hnone]
            simp
          rw [hm, spec_first_track_for, if_pos hmp]
          rfl
      · have hfirst : spec_first_track_for (t :: rest) i = spec_first_track_for rest i := by
          rw [spec_first_track_for, if_neg]
          intro hc
          rw [hmp] at hc
          cases hc
          exact hij rfl
        rw [hfirst]
        by_cases hdup : (map_find acc j).isSome
        · rw [if_pos hdup] at h
          exact ih acc m i h hnone
        · rw [if_neg hdup] at h
          refine ih _ m i h ?_
          rw [map_find_append, hnone, if_neg hij]

/-- Extraction keeps the dict keys free of duplicates. -/
theorem extract_keys_nodup (ts : List Track) :
    ∀ (acc m : PianorollMap),
    extract_pianorolls ts acc = .ok m → (map_keys acc).Nodup →
    (map_keys m).Nodup := by
  induction ts with
  | nil =>
    intro acc m h hnd
    rw [extract_pianorolls] at h
    cases h
    exact hnd
  | cons t rest ih =>
    intro acc m h hnd
    cases hmp : map_program t.program with
    | error e =>
      rw [extract_pianorolls_cons_error t rest acc e hmp] at h
      exact absurd h (by simp)
    | ok j =>
      rw [extract_pianorolls_cons_ok t rest acc j hmp] at h
      by_cases hdup : (map_find acc j).isSome
      · rw [if_pos hdup] at h
        exact ih acc m h hnd
      · rw [if_neg hdup] at h
        refine ih _ m h ?_
        have hj : j ∉ map_keys acc :=
          not_mem_keys_of_find_eq_none acc j (Option.not_isSome_iff_eq_none.mp hdup)
        have hkeys : map_keys (acc ++ [(j, t.pianoroll)]) = map_keys acc ++ [j] := by
          simp [map_keys]
        have hiff : (map_keys acc ++ [j]).Nodup ↔ (map_keys acc).Nodup ∧ j ∉ map_keys acc := by
          simp [List.nodup_append]
        rw [hkeys]
        exact hiff.mpr ⟨hnd, hj⟩

/-- Appending one more track whose instrument the result already binds does
not change the extraction result, and in particular does not raise. -/
theorem extract_append_duplicate (ts : List Track) :
    ∀ (acc m : PianorollMap) (t : Track) (j : INSTRUMENT),
    extract_pianorolls ts acc = .ok m → map_program t.program = .ok j →
    (map_find m j).isSome →
    extract_pianorolls (ts ++ [t]) acc = .ok m := by
  induction ts with
  | nil =>
    intro acc m t j h hmp hj
    rw [extract_pianorolls] at h
    cases h
    rw [List.nil_append, extract_pianorolls_cons_ok t [] acc j hmp, if_pos hj,
      extract_pianorolls]
  | cons u rest ih =>
    intro acc m t j h hmp hj
    cases hmpu : map_program u.program with
    | error e =>
      rw [extract_pianorolls_cons_error u rest acc e hmpu] at h
      exact absurd h (by simp)
    | ok ju =>
      rw [List.cons_append, extract_pianorolls_cons_ok u (rest ++ [t]) acc ju hmpu]
      rw [extract_pianorolls_cons_ok u rest acc ju hmpu] at h
      by_cases hdup : (map_find acc ju).isSome
      · rw [if_pos hdup] at h
        rw [if_pos hdup]
        exact ih acc m t j h hmp hj
      · rw [if_neg hdup] at h
        rw [if_neg hdup]
        exact ih _ m t j h hmp hj

/-- C1: the claim states the program-to-instrument mapping is total on
[0,127] with ordinal (p div 8) + 1.  The code instead applies Python true
division: INSTRUMENT(program / 8 + 1) receives a non-integer float for every
program not divisible by 8 and the Enum constructor raises ValueError, so
program 1 — which the claim sends to PIANO — raises instead; only the
sixteen multiples of 8 map successfully (to the bucket ordinals the claim
describes), as the samples below show. -/
theorem map_program_true_division_rejects_most_programs :
    map_program 1 = .error (.valueError "is not a valid INSTRUMENT") ∧
    map_program 7 = .error (.valueError "is not a valid INSTRUMENT") ∧
    map_program 127 = .error (.valueError "is not a valid INSTRUMENT") ∧
    map_program 0 = .ok .PIANO ∧
    map_program 8 = .ok .CHROMATIC_PERCUSSION ∧
    map_program 120 = .ok .SOUND_EFFECTS := by
  exact ⟨by decide, by decide, by decide, by decide, by decide, by decide⟩

/-- C2: extraction is first-writer-wins.  Whenever extraction of a track
list returns a map, that map binds each instrument at most once (its key
view has no duplicates), binds an instrument exactly when some track maps
to it — namely to the unmodified pianoroll matrix of the first such track —
and appending one more track whose instrument is already bound returns the
same map rather than raising. -/
theorem extract_pianorolls_first_writer_wins (ts : List Track) (m : PianorollMap)
    (h : extract_pianorolls ts [] = .ok m) :
    (map_keys m).Nodup ∧
    (∀ i, map_find m i = Option.map Track.pianoroll (spec_first_track_for ts i)) ∧
    (∀ t j, map_program t.program = .ok j → (map_find m j).isSome →
      extract_pianorolls (ts ++ [t]) [] = .ok m) := by
  refine ⟨?_, ?_, ?_⟩
  · exact extract_keys_nodup ts [] m h (by simp [map_keys])
  · intro i
    exact extract_binds_first_track ts [] m i h rfl
  · intro t j hmp hj
    exact extract_append_duplicate ts [] m t j h hmp hj

/-- Witness for C2 on two concrete PIANO tracks with distinguishable
matrices: the first track's matrix is retained, the key view is
duplicate-free, and re-running extraction with one more duplicate PIANO
track appended still returns the same map without an error. -/
theorem extract_pianorolls_first_writer_wins_witness :
    extract_pianorolls [⟨0, [[1]]⟩, ⟨0, [[2]]⟩] [] = .ok [(.PIANO, [[1]])] ∧
    (map_keys [(.PIANO, [[1]])]).Nodup ∧
    map_find [(.PIANO, [[1]])] .PIANO =
      Option.map Track.pianoroll (spec_first_track_for [⟨0, [[1]]⟩, ⟨0, [[2]]⟩] .PIANO) ∧
    extract_pianorolls ([⟨0, [[1]]⟩, ⟨0, [[2]]⟩] ++ [⟨0, [[3]]⟩]) [] = .ok [(.PIANO, [[1]])] :=
  ⟨by decide,
   (extract_pianorolls_first_writer_wins [⟨0, [[1]]⟩, ⟨0, [[2]]⟩] [(.PIANO, [[1]])] (by decide)).1,
   (extract_pianorolls_first_writer_wins [⟨0, [[1]]⟩, ⟨0, [[2]]⟩] [(.PIANO, [[1]])] (by decide)).2.1 .PIANO,
   (extract_pianorolls_first_writer_wins [⟨0, [[1]]⟩, ⟨0, [[2]]⟩] [(.PIANO, [[1]])] (by decide)).2.2
     ⟨0, [[3]]⟩ .PIANO (by decide) (by decide)⟩

/-- C4: the claim says a missing required instrument makes construction fail
with a descriptive ValueError naming the instrument.  That holds when every
retained record has at most one instrument (second conjunct), but the
membership test runs through get_instruments, whose sorted() call raises
TypeError on any record with two or more instruments — plain Enum members
are unordered — so there the promised descriptive error is preempted by a
TypeError that names nothing (first conjunct), contradicting the claim, the
docstring of get_instruments, and the test expecting ValueError. -/
theorem validate_data_typeerror_preempts_descriptive_error :
    validate_data [[(.PIANO, [[1]]), (.ORGAN, [[2]])]] [.REED] =
      .error (.typeError "< not supported between instances of INSTRUMENT and INSTRUMENT") ∧
    validate_data [[(.PIANO, [[1]])]] [.REED] =
      .error (.valueError "Instrument REED is missing in the MIDI of the dataset!") := by
  exact ⟨by decide, by decide⟩

/-- C6: the claim says the instruments accessor returns the record's keys
sorted ascending and never fails on a validly constructed record.  The
record below is validly constructed — extraction of two tracks with
programs 0 and 16 succeeds and yields the keys PIANO and ORGAN — yet
get_instruments raises TypeError, because sorted() compares plain Enum
members, which define no order; with zero or one key no comparison happens
and the accessor returns. -/
theorem get_instruments_raises_for_two_or_more :
    extract_pianorolls [⟨0, [[1]]⟩, ⟨16, [[2]]⟩] [] =
      .ok [(.PIANO, [[1]]), (.ORGAN, [[2]])] ∧
    get_instruments [(.PIANO, [[1]]), (.ORGAN, [[2]])] =
      .error (.typeError "< not supported between instances of INSTRUMENT and INSTRUMENT") ∧
    get_instruments [(.PIANO, [[1]])] = .ok [.PIANO] ∧
    get_instruments ([] : PianorollMap) = .ok [] := by
  exact ⟨by decide, by decide, by decide, by decide⟩

/-- C3: cache round-trip.  Storing a pianoroll map for a path under a cache
root and reading it back with the same path and root returns exactly the
stored map, and a lookup against a cache root under which nothing was ever
written returns absent. -/
theorem cache_put_then_get_round_trip (p ch : String) (rolls : PianorollMap)
    (fs : CacheFS) (hfresh : ∀ s, fs (ch ++ "/" ++ s) = none) :
    (∃ fs2, store_pianorolls_to_cache (some p) (some ch) rolls fs = .ok fs2 ∧
      try_pianorolls_from_cache (some p) (some ch) fs2 = .ok (some rolls)) ∧
    try_pianorolls_from_cache (some p) (some ch) fs = .ok none := by
  constructor
  · refine ⟨fun k => if k = get_cache_path p ch then some (.ok rolls) else fs k, rfl, ?_⟩
    simp [try_pianorolls_from_cache]
  · have h3 : fs (get_cache_path p ch) = none := by
      unfold get_cache_path
      rw [String.append_assoc]
      exact hfresh (md5_hexdigest p ++ ".pkl")
    simp [try_pianorolls_from_cache, h3]

/-- Witness for C3 at one concrete path, cache root, map and an empty
filesystem. -/
theorem cache_put_then_get_round_trip_witness :
    (∃ fs2, store_pianorolls_to_cache (some "song.mid") (some "cache")
        [(.PIANO, [[1, 2]])] (fun _ => none) = .ok fs2 ∧
      try_pianorolls_from_cache (some "song.mid") (some "cache") fs2 =
        .ok (some [(.PIANO, [[1, 2]])])) ∧
    try_pianorolls_from_cache (some "song.mid") (some "cache") (fun _ => none) =
      .ok none :=
  cache_put_then_get_round_trip "song.mid" "cache" [(.PIANO, [[1, 2]])]
    (fun _ => none) (fun _ => rfl)

/-- C7: cache lookup semantics.  A lookup returns absent when the cache root
is unset or the computed storage location holds nothing; when the location
holds a blob that deserializes, the stored map is returned; when the blob
fails to deserialize, the lookup surfaces a fatal error (the uncaught
unpickling exception) rather than reporting a miss. -/
theorem cache_get_absent_hit_and_corruption_semantics (p ch : String) (fs : CacheFS) :
    try_pianorolls_from_cache (some p) none fs = .ok none ∧
    (fs (get_cache_path p ch) = none →
      try_pianorolls_from_cache (some p) (some ch) fs = .ok none) ∧
    (∀ rolls, fs (get_cache_path p ch) = some (.ok rolls) →
      try_pianorolls_from_cache (some p) (some ch) fs = .ok (some rolls)) ∧
    (∀ b, fs (get_cache_path p ch) = some (.error b) →
      try_pianorolls_from_cache (some p) (some ch) fs =
        .error (.unpicklingError "could not deserialize cache entry")) := by
  refine ⟨rfl, ?_, ?_, ?_⟩
  · intro h
    simp [try_pianorolls_from_cache, h]
  · intro rolls h
    simp [try_pianorolls_from_cache, h]
  · intro b h
    simp [try_pianorolls_from_cache, h]

/-- Witness for C7: the four behaviors at concrete inputs — unset root,
empty location, a deserializable entry, and a corrupt entry. -/
theorem cache_get_absent_hit_and_corruption_semantics_witness :
    try_pianorolls_from_cache (some "x.mid") none (fun _ => none) = .ok none ∧
    try_pianorolls_from_cache (some "x.mid") (some "c") (fun _ => none) = .ok none ∧
    try_pianorolls_from_cache (some "x.mid") (some "c")
      (fun k => if k = get_cache_path "x.mid" "c" then some (.ok [(.ORGAN, [[3]])]) else none) =
      .ok (some [(.ORGAN, [[3]])]) ∧
    try_pianorolls_from_cache (some "x.mid") (some "c")
      (fun k => if k = get_cache_path "x.mid" "c" then some (.error ()) else none) =
      .error (.unpicklingError "could not deserialize cache entry") :=
  ⟨(cache_get_absent_hit_and_corruption_semantics "x.mid" "c" (fun _ => none)).1,
   (cache_get_absent_hit_and_corruption_semantics "x.mid" "c" (fun _ => none)).2.1 rfl,
   (cache_get_absent_hit_and_corruption_semantics "x.mid" "c"
     (fun k => if k = get_cache_path "x.mid" "c" then some (.ok [(.ORGAN, [[3]])]) else none)).2.2.1
     [(.ORGAN, [[3]])] (by simp),
   (cache_get_absent_hit_and_corruption_semantics "x.mid" "c"
     (fun k => if k = get_cache_path "x.mid" "c" then some (.error ()) else none)).2.2.2
     () (by simp)⟩

/-- C9 counterexample: the claim says a record constructed from pre-parsed
tracks bypasses the cache for any cache_root setting and construction
succeeds.  With a cache root set and no path, construction instead raises
AttributeError, because the cache lookup computes md5(midi_path.encode())
with midi_path = None. -/
theorem multitrack_record_with_cache_home_raises :
    (MIDIData_init (fun _ => .error (.valueError "parser unused")) none
      (some [⟨0, [[1]]⟩]) (some "cache") (fun _ => none)).1 =
      .error (.attributeError "NoneType object has no attribute encode") := by
  decide

/-- C9 amended: a record constructed directly from a pre-parsed track list
with the cache root unset bypasses the cache entirely — construction
succeeds with the extracted map, never reads the filesystem (the result
holds for every fs), and returns the cache state unchanged; with a cache
root set, construction instead fails while computing the cache path. -/
theorem multitrack_record_without_cache_home_bypasses_cache
    (parse : String → Except PyErr (List Track)) (mt : List Track)
    (rolls : PianorollMap) (fs : CacheFS)
    (h : extract_pianorolls mt [] = .ok rolls) :
    MIDIData_init parse none (some mt) none fs = (.ok rolls, fs) := by
  simp [MIDIData_init, try_pianorolls_from_cache, truthy, store_pianorolls_to_cache, h]

/-- Witness for the amended C9 at a concrete track list and empty
filesystem. -/
theorem multitrack_record_without_cache_home_bypasses_cache_witness :
    MIDIData_init (fun _ => .error (.valueError "parser unused")) none
      (some [⟨0, [[1]]⟩]) none (fun _ => none) = (.ok [(.PIANO, [[1]])], fun _ => none) :=
  multitrack_record_without_cache_home_bypasses_cache
    (fun _ => .error (.valueError "parser unused")) [⟨0, [[1]]⟩]
    [(.PIANO, [[1]])] (fun _ => none) (by decide)

/-- With the cache root unset, record construction never writes to the
filesystem: the returned cache state is the input state. -/
theorem MIDIData_init_nocache_snd (parse : String → Except PyErr (List Track))
    (midi_path : Option String) (multi_track : Option (List Track)) (fs : CacheFS) :
    (MIDIData_init parse midi_path multi_track none fs).2 = fs := by
  unfold MIDIData_init
  split
  · rfl
  · simp only [try_pianorolls_from_cache, store_pianorolls_to_cache]
    split
    · rfl
    · split
      · rfl
      · rfl

/-- C8: bulk build tolerates per-file ValueErrors and preserves order.  With
the cache root unset (so that per-file construction is independent of the
threaded filesystem), provided every path either constructs successfully or
fails with the ValueError class the loader catches, the loader returns
exactly the successfully constructed records, in the caller-given path
order, with every failing path excluded and no abort. -/
theorem load_midis_skips_value_errors_preserving_order
    (parse : String → Except PyErr (List Track)) (paths : List String)
    (acc : List PianorollMap) (fs : CacheFS)
    (hv : ∀ p ∈ paths,
      is_ok_or_value_error (MIDIData_init parse (some p) none none fs).1 = true) :
    (load_midis parse none paths acc fs).1 =
      .ok (acc ++ paths.filterMap
        (fun p => ((MIDIData_init parse (some p) none none fs).1).toOption)) := by
  induction paths generalizing acc with
  | nil => simp [load_midis]
  | cons p rest ih =>
    have hsnd : (MIDIData_init parse (some p) none none fs).2 = fs :=
      MIDIData_init_nocache_snd parse (some p) none fs
    cases hr : (MIDIData_init parse (some p) none none fs).1 with
    | ok rolls =>
      have hpair : MIDIData_init parse (some p) none none fs = (.ok rolls, fs) := by
        have heta : MIDIData_init parse (some p) none none fs =
            ((MIDIData_init parse (some p) none none fs).1,
             (MIDIData_init parse (some p) none none fs).2) := rfl
        rw [heta, hr, hsnd]
      simp only [load_midis, hpair]
      rw [ih (acc ++ [rolls]) (fun q hq => hv q (List.mem_cons_of_mem p hq))]
      simp [List.filterMap_cons, hr, Except.toOption, List.append_assoc]
    | error e =>
      have he := hv p (List.mem_cons_self p rest)
      rw [hr] at he
      rcases e with msg | msg | msg | msg | msg | msg
      · have hpair : MIDIData_init parse (some p) none none fs =
            (.error (.valueError msg), fs) := by
          have heta : MIDIData_init parse (some p) none none fs =
              ((MIDIData_init parse (some p) none none fs).1,
               (MIDIData_init parse (some p) none none fs).2) := rfl
          rw [heta, hr, hsnd]
        simp only [load_midis, hpair]
        rw [ih acc (fun q hq => hv q (List.mem_cons_of_mem p hq))]
        simp [List.filterMap_cons, hr, Except.toOption]
      all_goals simp [is_ok_or_value_error] at he

/-- Witness for C8: three paths of which the middle one fails to parse with
ValueError; the collection retains the two good records, in input order,
and the bad file is merely excluded. -/
theorem load_midis_skips_value_errors_preserving_order_witness :
    (∀ p ∈ ["a.mid", "bad.mid", "b.mid"],
      is_ok_or_value_error (MIDIData_init
        (fun q => if q = "a.mid" then .ok [⟨0, [[5]]⟩]
          else if q = "b.mid" then .ok [⟨0, [[7]]⟩]
          else .error (.valueError "cannot parse midi"))
        (some p) none none (fun _ => none)).1 = true) ∧
    (load_midis
      (fun q => if q = "a.mid" then .ok [⟨0, [[5]]⟩]
        else if q = "b.mid" then .ok [⟨0, [[7]]⟩]
        else .error (.valueError "cannot parse midi"))
      none ["a.mid", "bad.mid", "b.mid"] [] (fun _ => none)).1 =
      .ok [[(.PIANO, [[5]])], [(.PIANO, [[7]])]] :=
  ⟨by decide,
   (load_midis_skips_value_errors_preserving_order
     (fun q => if q = "a.mid" then .ok [⟨0, [[5]]⟩]
       else if q = "b.mid" then .ok [⟨0, [[7]]⟩]
       else .error (.valueError "cannot parse midi"))
     ["a.mid", "bad.mid", "b.mid"] [] (fun _ => none) (by decide)).trans (by decide)⟩

/-- Dict subscript succeeds exactly on present keys, returning the binding. -/
theorem map_find_of_get_pianoroll_ok (rolls : PianorollMap) (i : INSTRUMENT) (m : Mat2)
    (h : get_pianoroll rolls i = .ok m) : map_find rolls i = some m := by
  unfold get_pianoroll at h
  cases hf : map_find rolls i with
  | none => rw [hf] at h; exact absurd h (by simp)
  | some w => rw [hf] at h; cases h; rfl

/-- Unfolding equation for the pianoroll comprehension when the head lookup
succeeds. -/
theorem get_pianorolls_list_cons_ok (rolls : PianorollMap) (j : INSTRUMENT)
    (rest : List INSTRUMENT) (mj : Mat2) (hpj : get_pianoroll rolls j = .ok mj) :
    get_pianorolls_list rolls (j :: rest) =
      match get_pianorolls_list rolls rest with
      | .error e => .error e
      | .ok ms => .ok (mj :: ms) := by
  rw [get_pianorolls_list, hpj]

/-- Unfolding equation for the pianoroll comprehension when the head lookup
raises KeyError. -/
theorem get_pianorolls_list_cons_error (rolls : PianorollMap) (j : INSTRUMENT)
    (rest : List INSTRUMENT) (e : PyErr) (hpj : get_pianoroll rolls j = .error e) :
    get_pianorolls_list rolls (j :: rest) = .error e := by
  rw [get_pianorolls_list, hpj]

/-- A successful comprehension returns, for each required instrument, that
instrument's stored matrix. -/
theorem get_pianorolls_list_mem (instrs : List INSTRUMENT) :
    ∀ (rolls : PianorollMap) (ms : List Mat2) (i : INSTRUMENT) (M : Mat2),
    get_pianorolls_list rolls instrs = .ok ms → i ∈ instrs →
    map_find rolls i = some M → M ∈ ms := by
  induction instrs with
  | nil =>
    intro rolls ms i M h hi hM
    exact absurd hi (by simp)
  | cons j rest ih =>
    intro rolls ms i M h hi hM
    cases hpj : get_pianoroll rolls j with
    | error e =>
      rw [get_pianorolls_list_cons_error rolls j rest e hpj] at h
      exact absurd h (by simp)
    | ok mj =>
      rw [get_pianorolls_list_cons_ok rolls j rest mj hpj] at h
      cases hgr : get_pianorolls_list rolls rest with
      | error e => rw [hgr] at h; exact absurd h (by simp)
      | ok msr =>
        rw [hgr] at h
        cases h
        rcases List.mem_cons.mp hi with rfl | hi2
        · have := map_find_of_get_pianoroll_ok rolls i mj hpj
          rw [this] at hM
          cases hM
          exact List.mem_cons_self _ _
        · exact List.mem_cons_of_mem mj (ih rolls msr i M hgr hi2 hM)

/-- Every matrix a successful comprehension returns is the stored matrix of
some required instrument. -/
theorem get_pianorolls_list_mem_rev (instrs : List INSTRUMENT) :
    ∀ (rolls : PianorollMap) (ms : List Mat2) (x : Mat2),
    get_pianorolls_list rolls instrs = .ok ms → x ∈ ms →
    ∃ i, i ∈ instrs ∧ map_find rolls i = some x := by
  induction instrs with
  | nil =>
    intro rolls ms x h hx
    rw [get_pianorolls_list] at h
    cases h
    exact absurd hx (by simp)
  | cons j rest ih =>
    intro rolls ms x h hx
    cases hpj : get_pianoroll rolls j with
    | error e =>
      rw [get_pianorolls_list_cons_error rolls j rest e hpj] at h
      exact absurd h (by simp)
    | ok mj =>
      rw [get_pianorolls_list_cons_ok rolls j rest mj hpj] at h
      cases hgr : get_pianorolls_list rolls rest with
      | error e => rw [hgr] at h; exact absurd h (by simp)
      | ok msr =>
        rw [hgr] at h
        cases h
        rcases List.mem_cons.mp hx with rfl | hx2
        · exact ⟨j, List.mem_cons_self _ _, map_find_of_get_pianoroll_ok rolls j x hpj⟩
        · obtain ⟨i, hi, hfind⟩ := ih rolls msr x hgr hx2
          exact ⟨i, List.mem_cons_of_mem j hi, hfind⟩

/-- When every required instrument is present, the comprehension succeeds
and returns the bindings positionally, in required-list order. -/
theorem get_pianorolls_list_ok_of_present (instrs : List INSTRUMENT) :
    ∀ (rolls : PianorollMap),
    (∀ i ∈ instrs, (map_find rolls i).isSome) →
    ∃ ms, get_pianorolls_list rolls instrs = .ok ms ∧
      ms.length = instrs.length ∧
      ∀ k, k < instrs.length →
        map_find rolls (instrs.getD k .PIANO) = some (ms.getD k []) := by
  induction instrs with
  | nil =>
    intro rolls _
    exact ⟨[], rfl, rfl, fun k hk => absurd hk (by simp)⟩
  | cons j rest ih =>
    intro rolls hp
    have hj := hp j (List.mem_cons_self j rest)
    rcases Option.isSome_iff_exists.mp hj with ⟨mj, hmj⟩
    have hpj : get_pianoroll rolls j = .ok mj := by
      rw [get_pianoroll, hmj]
    obtain ⟨msr, hmsr, hlen, hidx⟩ :=
      ih rolls (fun i hi => hp i (List.mem_cons_of_mem j hi))
    refine ⟨mj :: msr, ?_, by simp [hlen], ?_⟩
    · rw [get_pianorolls_list_cons_ok rolls j rest mj hpj, hmsr]
    · intro k hk
      cases k with
      | zero => simpa using hmj
      | succ n =>
        have hn : n < rest.length := by simpa using hk
        simpa using hidx n hn

/-- Characterization of shape-tuple equality: same row count and pointwise
equal row lengths (out-of-range positions agree on the default). -/
theorem sameShape_iff (a : Mat2) : ∀ (b : Mat2),
    sameShape a b = true ↔
      (a.length = b.length ∧ ∀ t, (a.getD t []).length = (b.getD t []).length) := by
  induction a with
  | nil =>
    intro b
    cases b with
    | nil => simp [sameShape]
    | cons y bs => simp [sameShape]
  | cons x as ih =>
    intro b
    cases b with
    | nil => simp [sameShape]
    | cons y bs =>
      rw [sameShape, Bool.and_eq_true, beq_iff_eq, ih bs]
      constructor
      · rintro ⟨hxy, hlen, hrows⟩
        refine ⟨by simp [hlen], ?_⟩
        intro t
        cases t with
        | zero => simpa using hxy
        | succ n => simpa using hrows n
      · rintro ⟨hlen, hrows⟩
        refine ⟨by simpa using hrows 0, by simpa using hlen, ?_⟩
        intro t
        simpa using hrows (t + 1)

/-- Shape-tuple equality is reflexive. -/
theorem sameShape_refl (a : Mat2) : sameShape a a = true :=
  (sameShape_iff a a).mpr ⟨rfl, fun _ => rfl⟩

/-- Positional access into a mapped range list, in range. -/
theorem getD_map_range {β : Type} (n t : Nat) (f : Nat → β) (d : β) (h : t < n) :
    ((List.range n).map f).getD t d = f t := by
  rw [List.getD_eq_getElem _ _ (by simpa using h)]
  simp

/-- Positional access commutes with map, in range. -/
theorem getD_map_of_lt {α β : Type} (l : List α) (f : α → β) (k : Nat) (d : β) (d2 : α)
    (h : k < l.length) :
    (l.map f).getD k d = f (l.getD k d2) := by
  rw [List.getD_eq_getElem _ _ (by simpa using h), List.getD_eq_getElem _ _ h]
  simp

/-- Positional access out of range returns the default. -/
theorem getD_of_le {α : Type} (l : List α) (n : Nat) (d : α) (h : l.length ≤ n) :
    l.getD n d = d := by
  simp [List.getD, List.getElem?_eq_none h]

/-- Positional access in range lands in the list. -/
theorem getD_mem_of_lt {α : Type} (l : List α) (n : Nat) (d : α) (h : n < l.length) :
    l.getD n d ∈ l := by
  rw [List.getD_eq_getElem _ _ h]
  exact List.getElem_mem h

/-- Head with default agrees with positional access at zero. -/
theorem headD_eq_getD_zero {α : Type} (l : List α) (d : α) : l.headD d = l.getD 0 d := by
  cases l <;> rfl

/-- Unfolding equation for __getitem__ once the indexed record is known. -/
theorem MIDIDataset_getitem_unfold (st : MIDIDatasetState) (index : Nat)
    (midi : PianorollMap) (hidx : st.midis[index]? = some midi) :
    MIDIDataset_getitem st index =
      match get_pianorolls_list midi st.instruments with
      | .error e => .error e
      | .ok ms => np_stack_axis2 ms := by
  rw [MIDIDataset_getitem, hidx]

/-- C10: stacking precondition.  When __getitem__ returns a stacked matrix,
all required instruments' matrices in the indexed record share one shape
tuple; and when two required instruments' matrices differ in their number of
time steps, __getitem__ raises an error instead of returning. -/
theorem getitem_requires_uniform_matrix_shapes (st : MIDIDatasetState) (index : Nat)
    (midi : PianorollMap) (hidx : st.midis[index]? = some midi) :
    (∀ g, MIDIDataset_getitem st index = .ok g →
      ∀ i ∈ st.instruments, ∀ j ∈ st.instruments, ∀ Mi Mj,
        map_find midi i = some Mi → map_find midi j = some Mj →
        sameShape Mi Mj = true) ∧
    (∀ i j Mi Mj, i ∈ st.instruments → j ∈ st.instruments →
      map_find midi i = some Mi → map_find midi j = some Mj →
      Mi.length ≠ Mj.length →
      ∃ e, MIDIDataset_getitem st index = .error e) := by
  constructor
  · intro g hg i hi j hj Mi Mj hfi hfj
    rw [MIDIDataset_getitem_unfold st index midi hidx] at hg
    cases hgl : get_pianorolls_list midi st.instruments with
    | error e => rw [hgl] at hg; exact absurd hg (by simp)
    | ok ms =>
      rw [hgl] at hg
      have hMi : Mi ∈ ms := get_pianorolls_list_mem st.instruments midi ms i Mi hgl hi hfi
      have hMj : Mj ∈ ms := get_pianorolls_list_mem st.instruments midi ms j Mj hgl hj hfj
      cases ms with
      | nil => exact absurd hMi (by simp)
      | cons m0 rest =>
        simp only [np_stack_axis2] at hg
        by_cases hall : rest.all (fun m => sameShape m0 m) = true
        · have hss : ∀ x ∈ m0 :: rest, sameShape m0 x = true := by
            intro x hx
            rcases List.mem_cons.mp hx with rfl | hx2
            · exact sameShape_refl x
            · exact List.all_eq_true.mp hall x hx2
          have h1 := (sameShape_iff m0 Mi).mp (hss Mi hMi)
          have h2 := (sameShape_iff m0 Mj).mp (hss Mj hMj)
          exact (sameShape_iff Mi Mj).mpr
            ⟨h1.1.symm.trans h2.1, fun t => (h1.2 t).symm.trans (h2.2 t)⟩
        · rw [if_neg hall] at hg
          exact absurd hg (by simp)
  · intro i j Mi Mj hi hj hfi hfj hlen
    rw [MIDIDataset_getitem_unfold st index midi hidx]
    cases hgl : get_pianorolls_list midi st.instruments with
    | error e => exact ⟨e, rfl⟩
    | ok ms =>
      have hMi : Mi ∈ ms := get_pianorolls_list_mem st.instruments midi ms i Mi hgl hi hfi
      have hMj : Mj ∈ ms := get_pianorolls_list_mem st.instruments midi ms j Mj hgl hj hfj
      cases ms with
      | nil => exact absurd hMi (by simp)
      | cons m0 rest =>
        refine ⟨.valueError "all input arrays must have the same shape", ?_⟩
        have hnall : ¬ rest.all (fun m => sameShape m0 m) = true := by
          intro hall
          have hss : ∀ x ∈ m0 :: rest, sameShape m0 x = true := by
            intro x hx
            rcases List.mem_cons.mp hx with rfl | hx2
            · exact sameShape_refl x
            · exact List.all_eq_true.mp hall x hx2
          have h1 := (sameShape_iff m0 Mi).mp (hss Mi hMi)
          have h2 := (sameShape_iff m0 Mj).mp (hss Mj hMj)
          exact hlen (h1.1.symm.trans h2.1)
        simp only [np_stack_axis2]
        rw [if_neg hnall]

/-- Witness for C10: a record holding a one-time-step PIANO matrix and a
two-time-step ORGAN matrix makes item access fail rather than stack. -/
theorem getitem_requires_uniform_matrix_shapes_witness :
    (MIDIDatasetState.mk [[(.PIANO, [[1]]), (.ORGAN, [[1], [2]])]]
        [.PIANO, .ORGAN]).midis[0]? = some [(.PIANO, [[1]]), (.ORGAN, [[1], [2]])] ∧
    ∃ e, MIDIDataset_getitem
      (MIDIDatasetState.mk [[(.PIANO, [[1]]), (.ORGAN, [[1], [2]])]]
        [.PIANO, .ORGAN]) 0 = .error e :=
  ⟨by decide,
   (getitem_requires_uniform_matrix_shapes
     (MIDIDatasetState.mk [[(.PIANO, [[1]]), (.ORGAN, [[1], [2]])]] [.PIANO, .ORGAN]) 0
     [(.PIANO, [[1]]), (.ORGAN, [[1], [2]])] (by decide)).2
     .PIANO .ORGAN [[1]] [[1], [2]] (by decide) (by decide) (by decide) (by decide)
     (by decide)⟩

/-- Core stacking property: when every required instrument is bound to a
matrix of shape (T, 128), the comprehension followed by np.stack succeeds
and produces the (T, 128, K) array whose [t][p][k] entry is the [t][p] entry
of the k-th required instrument's matrix. -/
theorem gpl_stack_uniform (midi : PianorollMap) (instrs : List INSTRUMENT) (T : Nat)
    (hne : instrs ≠ [])
    (hsh : ∀ i ∈ instrs, ∃ M, map_find midi i = some M ∧ M.length = T ∧
      ∀ r ∈ M, r.length = 128) :
    ∃ ms g, get_pianorolls_list midi instrs = .ok ms ∧ np_stack_axis2 ms = .ok g ∧
      g.length = T ∧
      (∀ row ∈ g, row.length = 128 ∧ ∀ c ∈ row, c.length = instrs.length) ∧
      (∀ t p k M, t < T → p < 128 → k < instrs.length →
        map_find midi (instrs.getD k .PIANO) = some M →
        ((g.getD t []).getD p []).getD k 0 = (M.getD t []).getD p 0) := by
  have hpres : ∀ i ∈ instrs, (map_find midi i).isSome := by
    intro i hi
    obtain ⟨M, hM, _, _⟩ := hsh i hi
    rw [hM]
    rfl
  obtain ⟨ms, hms, hlen, hidxk⟩ := get_pianorolls_list_ok_of_present instrs midi hpres
  have hx : ∀ x ∈ ms, x.length = T ∧ ∀ r ∈ x, r.length = 128 := by
    intro x hxm
    obtain ⟨i, hi, hfind⟩ := get_pianorolls_list_mem_rev instrs midi ms x hms hxm
    obtain ⟨M, hM, hMT, hMr⟩ := hsh i hi
    rw [hfind] at hM
    cases hM
    exact ⟨hMT, hMr⟩
  cases ms with
  | nil =>
    exfalso
    apply hne
    have hz : instrs.length = 0 := by simpa using hlen.symm
    exact List.length_eq_zero.mp hz
  | cons m0 rest =>
    have hm0 := hx m0 (List.mem_cons_self m0 rest)
    have hall : rest.all (fun m => sameShape m0 m) = true := by
      rw [List.all_eq_true]
      intro x hx2
      have hxx := hx x (List.mem_cons_of_mem m0 hx2)
      refine (sameShape_iff m0 x).mpr ⟨by rw [hm0.1, hxx.1], ?_⟩
      intro t
      by_cases ht : t < T
      · rw [hm0.2 (m0.getD t []) (getD_mem_of_lt m0 t [] (by rw [hm0.1]; exact ht)),
          hxx.2 (x.getD t []) (getD_mem_of_lt x t [] (by rw [hxx.1]; exact ht))]
      · rw [getD_of_le m0 t [] (by rw [hm0.1]; omega),
          getD_of_le x t [] (by rw [hxx.1]; omega)]
    have hstack : np_stack_axis2 (m0 :: rest) = .ok (stack_data (m0 :: rest)) := by
      simp only [np_stack_axis2]
      rw [if_pos hall]
    have hgdef : stack_data (m0 :: rest) =
        (List.range m0.length).map fun t =>
          (List.range (m0.headD []).length).map fun p =>
            (m0 :: rest).map fun m => (m.getD t []).getD p 0 := rfl
    refine ⟨m0 :: rest, stack_data (m0 :: rest), hms, hstack, ?_, ?_, ?_⟩
    · rw [hgdef]
      simp [hm0.1]
    · intro row hrow
      rw [hgdef] at hrow
      obtain ⟨t, ht, rfl⟩ := List.mem_map.mp hrow
      have htl : t < m0.length := List.mem_range.mp ht
      have hTpos : 0 < m0.length := Nat.lt_of_le_of_lt (Nat.zero_le t) htl
      have hhead : (m0.headD []).length = 128 := by
        rw [headD_eq_getD_zero]
        exact hm0.2 (m0.getD 0 []) (getD_mem_of_lt m0 0 [] hTpos)
      constructor
      · rw [List.length_map, List.length_range]
        exact hhead
      · intro c hc
        obtain ⟨p, hp, rfl⟩ := List.mem_map.mp hc
        simpa using hlen
    · intro t p k M ht hp hk hM
      have hMk := hidxk k hk
      have hMeq : (m0 :: rest).getD k [] = M := Option.some.inj (hMk.symm.trans hM)
      have ht0 : t < m0.length := by rw [hm0.1]; exact ht
      have hTpos : 0 < m0.length := Nat.lt_of_le_of_lt (Nat.zero_le t) ht0
      have hhead : (m0.headD []).length = 128 := by
        rw [headD_eq_getD_zero]
        exact hm0.2 (m0.getD 0 []) (getD_mem_of_lt m0 0 [] hTpos)
      have hp0 : p < (m0.headD []).length := by rw [hhead]; exact hp
      have hk0 : k < (m0 :: rest).length := by rw [hlen]; exact hk
      rw [hgdef, getD_map_range m0.length t _ [] ht0,
        getD_map_range (m0.headD []).length p _ [] hp0,
        getD_map_of_lt (m0 :: rest) _ k 0 [] hk0, hMeq]

/-- C5 counterexample: as stated the claim fails in two ways.  With an empty
required list (K = 0) on a validly constructed dataset, __getitem__ raises
the np.stack ValueError for an empty array sequence instead of returning a
(T, 128, 0) matrix; and when the required matrices do not share one shape,
np.stack raises instead of returning a stacked matrix. -/
theorem getitem_fails_on_empty_or_mismatched_required :
    (MIDIDataset_init (fun _ => .ok [⟨0, [[1]]⟩]) ["a.mid"] [] none (fun _ => none)).1 =
      .ok ⟨[[(.PIANO, [[1]])]], []⟩ ∧
    MIDIDataset_getitem ⟨[[(.PIANO, [[1]])]], []⟩ 0 =
      .error (.valueError "need at least one array to stack") ∧
    MIDIDataset_getitem ⟨[[(.PIANO, [[1]]), (.ORGAN, [[1], [2]])]], [.PIANO, .ORGAN]⟩ 0 =
      .error (.valueError "all input arrays must have the same shape") := by
  exact ⟨by decide, by decide, by decide⟩

/-- C5 amended: for a successfully constructed dataset, length() counts
exactly the records the loader retained, and for every in-range index and
nonempty required instrument list whose instruments are bound in the indexed
record to matrices all of shape (T, 128), get(index) returns the stacked
(T, 128, K) matrix whose trailing axis enumerates the required instruments
in their given order. -/
theorem getitem_stacks_required_instruments_in_order
    (parse : String → Except PyErr (List Track)) (paths : List String)
    (instruments : List INSTRUMENT) (cache_home : Option String) (fs : CacheFS)
    (st : MIDIDatasetState) (index T : Nat) (midi : PianorollMap)
    (hinit : (MIDIDataset_init parse paths instruments cache_home fs).1 = .ok st)
    (hidx : st.midis[index]? = some midi)
    (hne : st.instruments ≠ [])
    (hsh : ∀ i ∈ st.instruments, ∃ M, map_find midi i = some M ∧ M.length = T ∧
      ∀ r ∈ M, r.length = 128) :
    MIDIDataset_len st = st.midis.length ∧
    (load_midis parse cache_home paths [] fs).1 = .ok st.midis ∧
    st.instruments = instruments ∧
    ∃ g, MIDIDataset_getitem st index = .ok g ∧
      g.length = T ∧
      (∀ row ∈ g, row.length = 128 ∧ ∀ c ∈ row, c.length = st.instruments.length) ∧
      (∀ t p k M, t < T → p < 128 → k < st.instruments.length →
        map_find midi (st.instruments.getD k .PIANO) = some M →
        ((g.getD t []).getD p []).getD k 0 = (M.getD t []).getD p 0) := by
  have hinit2 := hinit
  unfold MIDIDataset_init at hinit2
  rcases hl : load_midis parse cache_home paths [] fs with ⟨r, fs2⟩
  rw [hl] at hinit2
  cases r with
  | error e => simp at hinit2
  | ok ms =>
    dsimp only at hinit2
    cases hvv : validate_data ms instruments with
    | error e =>
      rw [hvv] at hinit2
      simp at hinit2
    | ok u =>
      rw [hvv] at hinit2
      simp at hinit2
      subst hinit2
      refine ⟨rfl, rfl, rfl, ?_⟩
      obtain ⟨ms2, g, hms2, hstack, hglen, hrows, hcells⟩ :=
        gpl_stack_uniform midi (MIDIDatasetState.mk ms instruments).instruments T hne hsh
      refine ⟨g, ?_, hglen, hrows, hcells⟩
      rw [MIDIDataset_getitem_unfold _ index midi hidx, hms2]
      exact hstack

/-- Witness for the amended C5: one file with a single PIANO track whose
matrix has shape (1, 128); the constructed dataset has length 1 and item 0
stacks to a (1, 128, 1) array reproducing the PIANO matrix entries. -/
theorem getitem_stacks_required_instruments_in_order_witness :
    (MIDIDataset_init (fun _ => .ok [⟨0, [List.replicate 128 2]⟩]) ["w.mid"] [.PIANO]
        none (fun _ => none)).1 =
      .ok (MIDIDatasetState.mk [[(.PIANO, [List.replicate 128 2])]] [.PIANO]) ∧
    (MIDIDataset_len (MIDIDatasetState.mk [[(.PIANO, [List.replicate 128 2])]] [.PIANO]) =
      (MIDIDatasetState.mk [[(.PIANO, [List.replicate 128 2])]] [.PIANO]).midis.length ∧
    (load_midis (fun _ => .ok [⟨0, [List.replicate 128 2]⟩]) none ["w.mid"] []
        (fun _ => none)).1 =
      .ok (MIDIDatasetState.mk [[(.PIANO, [List.replicate 128 2])]] [.PIANO]).midis ∧
    (MIDIDatasetState.mk [[(.PIANO, [List.replicate 128 2])]] [.PIANO]).instruments =
      [.PIANO] ∧
    ∃ g, MIDIDataset_getitem
        (MIDIDatasetState.mk [[(.PIANO, [List.replicate 128 2])]] [.PIANO]) 0 = .ok g ∧
      g.length = 1 ∧
      (∀ row ∈ g, row.length = 128 ∧ ∀ c ∈ row,
        c.length = (MIDIDatasetState.mk [[(.PIANO, [List.replicate 128 2])]]
          [.PIANO]).instruments.length) ∧
      (∀ t p k M, t < 1 → p < 128 →
        k < (MIDIDatasetState.mk [[(.PIANO, [List.replicate 128 2])]]
          [.PIANO]).instruments.length →
        map_find [(.PIANO, [List.replicate 128 2])]
          ((MIDIDatasetState.mk [[(.PIANO, [List.replicate 128 2])]]
            [.PIANO]).instruments.getD k .PIANO) = some M →
        ((g.getD t []).getD p []).getD k 0 = (M.getD t []).getD p 0)) :=
  ⟨by decide,
   getitem_stacks_required_instruments_in_order
     (fun _ => .ok [⟨0, [List.replicate 128 2]⟩]) ["w.mid"] [.PIANO] none (fun _ => none)
     (MIDIDatasetState.mk [[(.PIANO, [List.replicate 128 2])]] [.PIANO]) 0 1
     [(.PIANO, [List.replicate 128 2])]
     (by decide) (by decide) (by decide)
     (by
       intro i hi
       rw [List.mem_singleton] at hi
       subst hi
       refine ⟨[List.replicate 128 2], rfl, rfl, ?_⟩
       intro r hr
       rw [List.mem_singleton] at hr
       subst hr
       exact List.length_replicate 128 2)⟩
